import Mathlib

/-!
Shallow embedding of the Mammoth Analytics SDK core (the resilient request
executor in `mammoth/client.py` and the job tracker in `mammoth/api/jobs.py`,
together with the upload orchestration tail of `mammoth/api/files.py` and the
data models of `mammoth/models/jobs.py`).

Modelling conventions:
* Parsed JSON values are the inductive `JVal`; Python dicts become association
  lists with first-match lookup.
* Network interaction is made explicit: the request executor consumes a list
  of per-attempt outcomes, the single-job wait consumes a list of raw job
  payloads (one per poll), and the multi-job wait consumes a server function
  from (round, job id) to a job record.
* Time advances only through the explicit sleeps of the loops (network calls
  are instantaneous in the model); each loop records its polls, sleeps and
  elapsed time so that counting claims are statable.
-/

/-- A parsed JSON value (the result of `response.json()`). -/
inductive JVal where
  | null : JVal
  | bool (b : Bool) : JVal
  | int (i : Int) : JVal
  | str (s : String) : JVal
  | arr (elems : List JVal) : JVal
  | dict (entries : List (String × JVal)) : JVal
  deriving Repr

/-- First-match lookup in an association list, modelling Python `dict.get`. -/
def JVal.lookup (entries : List (String × JVal)) (key : String) : Option JVal :=
  match entries with
  | [] => none
  | (k, v) :: rest => if k = key then some v else JVal.lookup rest key

/-- The job status enumeration of `models/jobs.py` (`JobStatus`). -/
inductive JobStatus where
  | success : JobStatus
  | failure : JobStatus
  | processing : JobStatus
  | error : JobStatus
  deriving Repr, DecidableEq

/-- Coercion of a wire status string into the `JobStatus` enumeration;
`none` models the pydantic validation failure for a value outside the enum. -/
def JobStatus.ofString (s : String) : Option JobStatus :=
  if s = "success" then some .success
  else if s = "failure" then some .failure
  else if s = "processing" then some .processing
  else if s = "error" then some .error
  else none

/-- A raw job payload as it appears on the wire, before model validation. -/
structure RawJob where
  id : Int
  status : String
  response : List (String × JVal)
  last_updated_at : String
  created_at : String
  path : String
  operation : String
  deriving Repr

/-- The validated `JobSchema` model: `status` has been checked against the
`JobStatus` enumeration, and `response` is a dict per the schema. -/
structure JobSchema where
  id : Int
  status : JobStatus
  response : List (String × JVal)
  last_updated_at : String
  created_at : String
  path : String
  operation : String
  deriving Repr

/-- Pydantic validation of a raw job payload into `JobSchema`: a status
string outside the enumeration raises a validation error. -/
def parseJobSchema (raw : RawJob) : Except String JobSchema :=
  match JobStatus.ofString raw.status with
  | some st =>
      .ok { id := raw.id, status := st, response := raw.response,
            last_updated_at := raw.last_updated_at, created_at := raw.created_at,
            path := raw.path, operation := raw.operation }
  | none => .error ("value is not a valid enumeration member: " ++ raw.status)

/-- The SDK's error taxonomy (`mammoth/exceptions.py`), as a closed sum.
`validationError` stands for the pydantic `ValidationError` that escapes
`get_job` when a payload fails model validation. -/
inductive SDKError where
  | authError (message : String) : SDKError
  | apiError (message : String) (status_code : Option Nat) (response_body : JVal) : SDKError
  | jobTimeout (job_id : Int) (timeout : Nat) : SDKError
  | jobFailed (job_id : Int) (failure_reason : Option JVal) : SDKError
  | validationError (message : String) : SDKError
  deriving Repr

/-- Python `repr()` of a parsed-JSON value, as used by f-string interpolation
of container values. -/
def JVal.pyRepr : JVal → String
  | .null => "None"
  | .bool b => if b then "True" else "False"
  | .int i => toString i
  | .str s => "'" ++ s ++ "'"
  | .arr l => "[" ++ String.intercalate ", " (l.attach.map (fun x => JVal.pyRepr x.1)) ++ "]"
  | .dict d =>
      "\x7b" ++
        String.intercalate ", "
          (d.attach.map (fun e => "'" ++ e.1.1 ++ "': " ++ JVal.pyRepr e.1.2)) ++
      "\x7d"
decreasing_by
  · simp only [JVal.arr.sizeOf_spec]
    have := List.sizeOf_lt_of_mem x.2
    omega
  · simp only [JVal.dict.sizeOf_spec]
    have h1 := List.sizeOf_lt_of_mem e.2
    have h2 : sizeOf e.1.2 < sizeOf e.1 := by
      obtain ⟨⟨k, v⟩, hm⟩ := e
      simp
    omega

/-- Python `str()` of a parsed-JSON value (as interpolated by an f-string):
identical to `repr()` except that a top-level string is rendered bare. -/
def JVal.pyStr : JVal → String
  | .str s => s
  | v => v.pyRepr

/-! ## Resilient request executor (`MammothClient._request`) -/

/-- One HTTP response as the executor observes it: status code, whether the
body is non-empty (`bool(response.content)`), the outcome of `response.json()`
(`.error` models the `ValueError` raised on unparseable bodies, carrying the
stringified exception), and the raw body text. -/
structure HttpResponse where
  status_code : Nat
  hasContent : Bool
  jsonParse : Except String JVal
  text : String
  deriving Repr

/-- A transport-level failure of one attempt, mirroring the three caught
`requests` exception classes. -/
inductive TransportFailure where
  | timeout (msg : String) : TransportFailure
  | connectionError (msg : String) : TransportFailure
  | requestException (msg : String) : TransportFailure
  deriving Repr, DecidableEq

/-- The outcome of one attempt of `session.request`: either a transport
failure or an HTTP response. -/
inductive AttemptOutcome where
  | failure (f : TransportFailure) : AttemptOutcome
  | response (r : HttpResponse) : AttemptOutcome
  deriving Repr

/-- How `_request` wraps a caught transport exception into `MammothAPIError`
(no status code, empty response body). -/
def transportError : TransportFailure → SDKError
  | .timeout msg => .apiError ("Request timeout: " ++ msg) none (.dict [])
  | .connectionError msg => .apiError ("Connection error: " ++ msg) none (.dict [])
  | .requestException msg => .apiError ("Request error: " ++ msg) none (.dict [])

/-- The response-handling body of `_request`'s try-block (client.py lines
129-165): 401 raises `MammothAuthError`; 2xx returns the parsed body (or an
empty dict on 204/empty content, or an API error on an unparseable body);
any other status raises an API error built from the parsed `detail` field
when the body is a JSON mapping, from a bare `HTTP <status>` message when it
is non-mapping JSON, and from the status plus the first 200 characters of the
raw text when it is not JSON at all. -/
def handleResponse (r : HttpResponse) : Except SDKError JVal :=
  if r.status_code = 401 then
    .error (.authError "Invalid API credentials")
  else if 200 ≤ r.status_code ∧ r.status_code < 300 then
    if r.status_code = 204 ∨ r.hasContent = false then
      .ok (.dict [])
    else
      match r.jsonParse with
      | .ok v => .ok v
      | .error e =>
          .error (.apiError ("Invalid JSON response: " ++ e)
            (some r.status_code) (.str r.text))
  else
    match r.jsonParse with
    | .ok (.dict entries) =>
        let error_detail :=
          match JVal.lookup entries "detail" with
          | some v => v.pyStr
          | none => "HTTP " ++ toString r.status_code
        .error (.apiError ("API request failed: " ++ error_detail)
          (some r.status_code) (.dict entries))
    | .ok v =>
        .error (.apiError ("API request failed: HTTP " ++ toString r.status_code)
          (some r.status_code) v)
    | .error _ =>
        .error (.apiError
          ("API request failed: HTTP " ++ toString r.status_code ++ ": " ++
            r.text.take 200)
          (some r.status_code) (.dict []))

/-- The observable trace of one `_request` call: its final result (`none`
only when the supplied attempt-outcome list was too short to decide the
call), the number of attempts made, and the backoff sleep durations in
order. -/
structure RequestTrace where
  result : Option (Except SDKError JVal)
  attempts : Nat
  sleeps : List Nat
  deriving Repr

/-- The retry loop of `_request` (client.py lines 124-183), consuming one
attempt outcome per iteration. A response ends the loop at once (the raise
of an API/auth error is re-raised by the `except MammothAPIError` arm); a
transport failure either backs off `2 ^ attempt` time units and retries
(while `attempt < max_retries`) or, on the final attempt, surfaces as the
raised last exception. The source keeps the failure in `last_exception` and
raises it after the loop; the loop's final iteration is always the one that
set it, so the model raises the current failure directly. -/
def requestLoop (max_retries attempt : Nat) (outcomes : List AttemptOutcome)
    (attempts : Nat) (sleeps : List Nat) : RequestTrace :=
  match outcomes with
  | [] => ⟨none, attempts, sleeps⟩
  | .response r :: _ => ⟨some (handleResponse r), attempts + 1, sleeps⟩
  | .failure f :: rest =>
      if attempt < max_retries then
        requestLoop max_retries (attempt + 1) rest (attempts + 1)
          (sleeps ++ [2 ^ attempt])
      else
        ⟨some (.error (transportError f)), attempts + 1, sleeps⟩

/-- `MammothClient._request` over an explicit list of per-attempt outcomes. -/
def mammothRequest (max_retries : Nat) (outcomes : List AttemptOutcome) :
    RequestTrace :=
  requestLoop max_retries 0 outcomes 0 []

/-! ## Job tracker — single-job wait (`JobsAPI.wait_for_job`) -/

/-- The outcome of one `wait_for_job` call. `raised` carries the exception
(job-failed, job-timeout, or the pydantic validation error escaping
`get_job`); `traceExhausted` is a model artifact marking a poll trace too
short to decide the call. -/
inductive SingleWaitOutcome where
  | completed (job : JobSchema) : SingleWaitOutcome
  | raised (e : SDKError) : SingleWaitOutcome
  | traceExhausted : SingleWaitOutcome
  deriving Repr

/-- The observable trace of a `wait_for_job` call: outcome, number of polls
issued (`get_job` calls), number of poll-interval sleeps, and the elapsed
time at termination. -/
structure SingleWaitTrace where
  outcome : SingleWaitOutcome
  polls : Nat
  sleeps : Nat
  elapsed : Nat
  deriving Repr

/-- The polling loop of `wait_for_job` (jobs.py lines 73-91) over an explicit
trace of raw per-poll payloads. The deadline is checked before each poll;
each poll parses the payload through the pydantic model (`get_job`, so an
out-of-enum status raises a validation error here — the loop's own
unknown-status arm is unreachable after validation); `success` returns,
`failure`/`error` raise a job-failed error with the `failure_reason` entry
of the response dict (the dict typing of `JobSchema.response` makes the
source's `isinstance` guard always true), and `processing` sleeps one poll
interval, advancing the model clock by `poll_interval`. -/
def waitForJobGo (job_id : Int) (timeout poll_interval : Nat) :
    List RawJob → Nat → Nat → Nat → SingleWaitTrace
  | trace, elapsed, polls, sleeps =>
    if elapsed < timeout then
      match trace with
      | [] => ⟨.traceExhausted, polls, sleeps, elapsed⟩
      | raw :: rest =>
        match parseJobSchema raw with
        | .error e => ⟨.raised (.validationError e), polls + 1, sleeps, elapsed⟩
        | .ok job =>
          match job.status with
          | .success => ⟨.completed job, polls + 1, sleeps, elapsed⟩
          | .failure =>
              ⟨.raised (.jobFailed job_id (JVal.lookup job.response "failure_reason")),
                polls + 1, sleeps, elapsed⟩
          | .error =>
              ⟨.raised (.jobFailed job_id (JVal.lookup job.response "failure_reason")),
                polls + 1, sleeps, elapsed⟩
          | .processing =>
              waitForJobGo job_id timeout poll_interval rest
                (elapsed + poll_interval) (polls + 1) (sleeps + 1)
    else
      ⟨.raised (.jobTimeout job_id timeout), polls, sleeps, elapsed⟩

/-- `JobsAPI.wait_for_job` over an explicit poll trace. -/
def wait_for_job (trace : List RawJob) (job_id : Int)
    (timeout poll_interval : Nat) : SingleWaitTrace :=
  waitForJobGo job_id timeout poll_interval trace 0 0 0

/-! ## Job tracker — multi-job wait (`JobsAPI.wait_for_jobs`) -/

/-- The result of the per-round `for job in jobs` loop of `wait_for_jobs`
(jobs.py lines 121-129): either the round aborts at the first
`failure`/`error` record, or it finishes with the updated pending list and
completed collection. -/
inductive RoundResult where
  | aborted (job_id : Int) (failure_reason : Option JVal) : RoundResult
  | next (remaining : List Int) (completed : List JobSchema) : RoundResult
  deriving Repr

/-- One round of `wait_for_jobs`: walk the fetched records in response
order; a `success` record is appended to the completed collection and its
id removed from the pending list (`list.remove` drops the first
occurrence); `failure`/`error` aborts immediately with that record's id and
`failure_reason`; `processing` leaves the record pending. -/
def processRound : List JobSchema → List Int → List JobSchema → RoundResult
  | [], remaining, completed => .next remaining completed
  | job :: rest, remaining, completed =>
    match job.status with
    | .success => processRound rest (remaining.erase job.id) (completed ++ [job])
    | .failure => .aborted job.id (JVal.lookup job.response "failure_reason")
    | .error => .aborted job.id (JVal.lookup job.response "failure_reason")
    | .processing => processRound rest remaining completed

/-- The outcome of one `wait_for_jobs` call; `fuelExhausted` is a model
artifact marking insufficient fuel for the loop. -/
inductive MultiWaitOutcome where
  | completed (jobs : List JobSchema) : MultiWaitOutcome
  | raised (e : SDKError) : MultiWaitOutcome
  | fuelExhausted : MultiWaitOutcome
  deriving Repr

/-- The observable trace of a `wait_for_jobs` call: outcome, the id list of
every batched `get_jobs` fetch in order, the number of loop rounds run, the
number of poll-interval sleeps, the elapsed time, and the pending id list at
termination. -/
structure MultiWaitTrace where
  outcome : MultiWaitOutcome
  fetches : List (List Int)
  rounds : Nat
  sleeps : Nat
  elapsed : Nat
  remainingAtEnd : List Int
  deriving Repr

/-- The polling loop of `wait_for_jobs` (jobs.py lines 114-137). The server
is modelled as a function from (round, job id) to the record returned for
that id; each round issues one batched fetch for the whole pending list
(`self.get_jobs(remaining_job_ids)`), processes it with `processRound`,
sleeps one poll interval if ids remain pending, and loops while the pending
list is non-empty and the deadline (checked before the fetch) has not
passed. On timeout the raised error carries the first still-pending id. -/
def waitForJobsGo (server : Nat → Int → JobSchema) (timeout poll_interval : Nat) :
    Nat → List Int → List JobSchema → Nat → Nat → List (List Int) → Nat →
    MultiWaitTrace
  | fuel, remaining, completed, round, elapsed, fetches, sleeps =>
    if remaining ≠ [] ∧ elapsed < timeout then
      match fuel with
      | 0 => ⟨.fuelExhausted, fetches, round, sleeps, elapsed, remaining⟩
      | fuel' + 1 =>
        match processRound (remaining.map (server round)) remaining completed with
        | .aborted jid reason =>
            ⟨.raised (.jobFailed jid reason), fetches ++ [remaining], round + 1,
              sleeps, elapsed, remaining⟩
        | .next remaining' completed' =>
            if remaining' ≠ [] then
              waitForJobsGo server timeout poll_interval fuel' remaining'
                completed' (round + 1) (elapsed + poll_interval)
                (fetches ++ [remaining]) (sleeps + 1)
            else
              waitForJobsGo server timeout poll_interval fuel' remaining'
                completed' (round + 1) elapsed (fetches ++ [remaining]) sleeps
    else
      if remaining ≠ [] then
        ⟨.raised (.jobTimeout (remaining.headD 0) timeout), fetches, round,
          sleeps, elapsed, remaining⟩
      else
        ⟨.completed completed, fetches, round, sleeps, elapsed, remaining⟩

/-- `JobsAPI.wait_for_jobs` over a modelled server, with enough fuel. -/
def wait_for_jobs (server : Nat → Int → JobSchema) (job_ids : List Int)
    (timeout poll_interval fuel : Nat) : MultiWaitTrace :=
  waitForJobsGo server timeout poll_interval fuel job_ids [] 0 0 [] 0

/-- `JobsAPI.extract_dataset_ids` (jobs.py lines 139-157): one entry per
completed job, the `ds_id` value of its response dict when present, `None`
otherwise (the dict typing of `JobSchema.response` makes the source's
`isinstance` guard always true). -/
def extract_dataset_ids (jobs : List JobSchema) : List (Option JVal) :=
  jobs.map (fun job => JVal.lookup job.response "ds_id")

/-! ## Upload-and-track orchestration (`FilesAPI.upload_files`, tail) -/

/-- `ObjectJobSchema` from `models/jobs.py`: one per-file entry of the upload
response. -/
structure ObjectJobSchema where
  status_code : Option Nat
  job_id : Option Int
  failure_reason : Option String
  deriving Repr

/-- The Python return value of `upload_files`
(`Union[List[int], int, None]`, with dataset-id values taken verbatim from
the job response dicts): a list of dataset ids, a single scalar id, `None`,
or — on the no-wait path — the list of job ids. -/
inductive UploadResult where
  | ids (l : List JVal) : UploadResult
  | single (d : JVal) : UploadResult
  | nothing : UploadResult
  | jobIds (l : List Int) : UploadResult
  deriving Repr

/-- The outcome of the upload orchestration tail. -/
inductive UploadOutcome where
  | returned (r : UploadResult) : UploadOutcome
  | raised (e : SDKError) : UploadOutcome
  | fuelExhausted : UploadOutcome
  deriving Repr

/-- The post-response tail of `FilesAPI.upload_files` (files.py lines
199-218), given the number of submitted files and the parsed
`ObjectJobSchema` list of the upload response: collect the non-`None` job
ids; without `wait_for_completion` return them; otherwise wait for all jobs
(forwarding only `timeout`, so the poll interval is the `wait_for_jobs`
default of 5), extract the dataset ids, drop the `None` entries, and return
a scalar (first valid id, else `None`) for a single file and the filtered
list for several; with no job ids at all, return `None` for one file and an
empty list for several. -/
def upload_files_post (numFiles : Nat) (objJobs : List ObjectJobSchema)
    (wait_for_completion : Bool) (timeout : Nat)
    (server : Nat → Int → JobSchema) (fuel : Nat) : UploadOutcome :=
  let job_ids := objJobs.filterMap (fun j => j.job_id)
  if wait_for_completion = false then
    .returned (.jobIds job_ids)
  else if job_ids ≠ [] then
    match (wait_for_jobs server job_ids timeout 5 fuel).outcome with
    | .raised e => .raised e
    | .fuelExhausted => .fuelExhausted
    | .completed completed_jobs =>
      let dataset_ids := extract_dataset_ids completed_jobs
      let valid_dataset_ids := dataset_ids.filterMap (fun d => d)
      if numFiles = 1 then
        match valid_dataset_ids with
        | [] => .returned .nothing
        | d :: _ => .returned (.single d)
      else
        .returned (.ids valid_dataset_ids)
  else
    if numFiles > 1 then .returned (.ids []) else .returned .nothing

/-! ## Lemmas about the request executor -/

/-- Consuming a block of transport failures: while the attempt counter stays
below `max_retries`, each failure costs one attempt and one backoff sleep of
`2 ^ attempt`. -/
theorem requestLoop_consume_failures (max_retries : Nat)
    (pre : List TransportFailure) (rest : List AttemptOutcome) :
    ∀ (attempt attempts : Nat) (sleeps : List Nat),
      attempt + pre.length ≤ max_retries →
      requestLoop max_retries attempt (pre.map AttemptOutcome.failure ++ rest)
          attempts sleeps =
        requestLoop max_retries (attempt + pre.length) rest
          (attempts + pre.length)
          (sleeps ++ (List.range pre.length).map (fun i => 2 ^ (attempt + i))) := by
  induction pre with
  | nil => intro attempt attempts sleeps _; simp
  | cons f pre ih =>
      intro attempt attempts sleeps h
      have hlt : attempt < max_retries := by
        simp only [List.length_cons] at h; omega
      rw [List.map_cons, List.cons_append, requestLoop, if_pos hlt,
        ih (attempt + 1) (attempts + 1) (sleeps ++ [2 ^ attempt])
          (by simp only [List.length_cons] at h ⊢; omega)]
      have harg1 : attempt + 1 + pre.length = attempt + (f :: pre).length := by
        simp only [List.length_cons]; omega
      have harg2 : attempts + 1 + pre.length = attempts + (f :: pre).length := by
        simp only [List.length_cons]; omega
      have harg3 :
          (sleeps ++ [2 ^ attempt]) ++
              (List.range pre.length).map (fun i => 2 ^ (attempt + 1 + i)) =
            sleeps ++
              (List.range (f :: pre).length).map (fun i => 2 ^ (attempt + i)) := by
        rw [List.append_assoc, List.length_cons, List.range_succ_eq_map,
          List.map_cons, List.map_map]
        have : ((fun i => 2 ^ (attempt + i)) ∘ Nat.succ) =
            (fun i => 2 ^ (attempt + 1 + i)) := by
          funext i
          simp only [Function.comp]
          congr 1
          omega
        rw [this]
        simp
      rw [harg1, harg2, harg3]

/-! ## Claims about the request executor -/

/-- C3: every transport failure is retried up to the configured
`max_retries`, with a backoff sleep of `2 ^ attempt` between consecutive
attempts (attempt counted from 0). First part: a run of `k ≤ max_retries`
transport failures followed by a successfully handled response makes
exactly `k + 1` attempts with sleeps `2^0, …, 2^(k-1)` and returns the
parsed result. Second part: when all `max_retries + 1` attempts fail with
transport errors, the last transport failure is raised as an API error
after `max_retries` sleeps. -/
theorem C3_transport_retry_backoff :
    (∀ (max_retries : Nat) (pre : List TransportFailure) (r : HttpResponse)
        (rest : List AttemptOutcome) (v : JVal),
      pre.length ≤ max_retries →
      handleResponse r = .ok v →
      mammothRequest max_retries
          (pre.map AttemptOutcome.failure ++ AttemptOutcome.response r :: rest) =
        ⟨some (.ok v), pre.length + 1,
          (List.range pre.length).map (fun i => 2 ^ i)⟩)
    ∧ (∀ (max_retries : Nat) (fs : List TransportFailure) (f : TransportFailure)
        (rest : List AttemptOutcome),
      fs.length = max_retries →
      mammothRequest max_retries ((fs ++ [f]).map AttemptOutcome.failure ++ rest) =
        ⟨some (.error (transportError f)), max_retries + 1,
          (List.range max_retries).map (fun i => 2 ^ i)⟩) := by
  constructor
  · intro max_retries pre r rest v hlen hok
    rw [mammothRequest,
      requestLoop_consume_failures max_retries pre _ 0 0 [] (by omega)]
    simp [requestLoop, hok]
  · intro max_retries fs f rest hlen
    rw [List.map_append, List.append_assoc, mammothRequest,
      requestLoop_consume_failures max_retries fs _ 0 0 [] (by omega)]
    simp [requestLoop, hlen]

/-- Witness for C3: with `max_retries = 3`, two connection failures followed
by a parseable 200 response make exactly 3 attempts and exactly 2 sleeps of
durations 1 and 2 (ratio 2), returning the parsed body; and with
`max_retries = 2`, three straight transport failures make 3 attempts, sleep
twice, and raise the last failure as an API error. -/
theorem C3_transport_retry_backoff_witness :
    mammothRequest 3
        [.failure (.connectionError "refused"), .failure (.connectionError "reset"),
          .response ⟨200, true, .ok (.dict [("job", .int 4)]), "body"⟩] =
      ⟨some (.ok (.dict [("job", .int 4)])), 3, [1, 2]⟩
    ∧ mammothRequest 2
        [.failure (.timeout "t1"), .failure (.connectionError "c2"),
          .failure (.requestException "r3")] =
      ⟨some (.error (.apiError "Request error: r3" none (.dict []))), 3, [1, 2]⟩ := by
  constructor
  · exact C3_transport_retry_backoff.1 3
      [.connectionError "refused", .connectionError "reset"]
      ⟨200, true, .ok (.dict [("job", .int 4)]), "body"⟩ [] (.dict [("job", .int 4)])
      (by decide) rfl
  · exact C3_transport_retry_backoff.2 2
      [.timeout "t1", .connectionError "c2"] (.requestException "r3") [] rfl

/-- C4: a response with HTTP status 401 on the first attempt makes exactly
one attempt, performs no backoff sleep, and raises the authentication
error, whatever `max_retries` is configured to. -/
theorem C4_auth_error_no_retry (max_retries : Nat) (r : HttpResponse)
    (rest : List AttemptOutcome) (h : r.status_code = 401) :
    mammothRequest max_retries (AttemptOutcome.response r :: rest) =
      ⟨some (.error (.authError "Invalid API credentials")), 1, []⟩ := by
  simp [mammothRequest, requestLoop, handleResponse, h]

/-- Witness for C4 at a concrete 401 response and `max_retries = 7`. -/
theorem C4_auth_error_no_retry_witness :
    mammothRequest 7
        [.response ⟨401, true, .ok (.dict [("detail", .str "bad key")]), "x"⟩,
          .response ⟨200, true, .ok .null, "y"⟩] =
      ⟨some (.error (.authError "Invalid API credentials")), 1, []⟩ :=
  C4_auth_error_no_retry 7 ⟨401, true, .ok (.dict [("detail", .str "bad key")]), "x"⟩
    [.response ⟨200, true, .ok .null, "y"⟩] rfl

/-- A concrete non-2xx response whose body parses as a JSON array: status
500, body text `[1, 2]`. -/
def arrayBody500 : HttpResponse :=
  ⟨500, true, .ok (.arr [.int 1, .int 2]), "[1, 2]"⟩

/-- Counterexample to C5 as stated: for a non-2xx, non-401 response whose
body does not parse as a structured mapping (here: it parses as the JSON
array `[1, 2]`), the claim requires a fallback message containing the raw
body text, but the executor produces the bare message
`API request failed: HTTP 500`, which does not contain the body text. -/
theorem C5_non_mapping_counterexample :
    mammothRequest 3 [.response arrayBody500] =
      ⟨some (.error (.apiError "API request failed: HTTP 500" (some 500)
        (.arr [.int 1, .int 2]))), 1, []⟩
    ∧ ¬ ("[1, 2]".data <:+: "API request failed: HTTP 500".data) := by
  refine ⟨rfl, ?_⟩
  intro h
  exact absurd (h.subset (by decide : '[' ∈ "[1, 2]".data)) (by decide)

/-- C5 (amended): a first-attempt response with a non-2xx status other than
401 is never retried — exactly one attempt, no backoff sleeps — and raises
an API error carrying the response's status code; its message holds the
server-supplied `detail` field when the body parses as a JSON mapping
(falling back to `HTTP <status>` when the mapping lacks `detail`), a bare
`HTTP <status>` when the body parses as non-mapping JSON, and the status
plus the raw body text truncated to 200 characters only when the body does
not parse as JSON at all. -/
theorem C5_api_error_no_retry (max_retries : Nat) (r : HttpResponse)
    (rest : List AttemptOutcome)
    (h401 : r.status_code ≠ 401)
    (hno2xx : ¬(200 ≤ r.status_code ∧ r.status_code < 300)) :
    (mammothRequest max_retries (AttemptOutcome.response r :: rest)).attempts = 1
    ∧ (mammothRequest max_retries (AttemptOutcome.response r :: rest)).sleeps = []
    ∧ (∀ entries, r.jsonParse = .ok (.dict entries) →
        (mammothRequest max_retries (AttemptOutcome.response r :: rest)).result =
          some (.error (.apiError
            ("API request failed: " ++
              (match JVal.lookup entries "detail" with
               | some v => v.pyStr
               | none => "HTTP " ++ toString r.status_code))
            (some r.status_code) (.dict entries))))
    ∧ (∀ v, r.jsonParse = .ok v → (∀ entries, v ≠ .dict entries) →
        (mammothRequest max_retries (AttemptOutcome.response r :: rest)).result =
          some (.error (.apiError ("API request failed: HTTP " ++ toString r.status_code)
            (some r.status_code) v)))
    ∧ (∀ e, r.jsonParse = .error e →
        (mammothRequest max_retries (AttemptOutcome.response r :: rest)).result =
          some (.error (.apiError
            ("API request failed: HTTP " ++ toString r.status_code ++ ": " ++
              r.text.take 200)
            (some r.status_code) (.dict [])))) := by
  have hreq : mammothRequest max_retries (AttemptOutcome.response r :: rest) =
      ⟨some (handleResponse r), 1, []⟩ := by
    simp [mammothRequest, requestLoop]
  rw [hreq]
  refine ⟨rfl, rfl, ?_, ?_, ?_⟩
  · intro entries hparse
    simp only [handleResponse, if_neg h401, if_neg hno2xx, hparse]
  · intro v hparse hnd
    simp only [handleResponse, if_neg h401, if_neg hno2xx, hparse]
  · intro e hparse
    simp only [handleResponse, if_neg h401, if_neg hno2xx, hparse]

set_option maxRecDepth 4000 in
/-- Witness for C5 (amended) at the three concrete body shapes: a JSON
mapping with `detail`, non-mapping JSON, and an unparseable HTML body. -/
theorem C5_api_error_no_retry_witness :
    ((mammothRequest 3 [.response ⟨503, true, .ok (.dict [("detail", .str "overloaded")]), "x"⟩]).attempts = 1
      ∧ (mammothRequest 3 [.response ⟨503, true, .ok (.dict [("detail", .str "overloaded")]), "x"⟩]).result =
          some (.error (.apiError "API request failed: overloaded" (some 503)
            (.dict [("detail", .str "overloaded")]))))
    ∧ ((mammothRequest 3 [.response arrayBody500]).result =
        some (.error (.apiError "API request failed: HTTP 500" (some 500)
          (.arr [.int 1, .int 2]))))
    ∧ ((mammothRequest 3 [.response ⟨502, true, .error "Expecting value", "<html>oops"⟩]).sleeps = []
      ∧ (mammothRequest 3 [.response ⟨502, true, .error "Expecting value", "<html>oops"⟩]).result =
          some (.error (.apiError "API request failed: HTTP 502: <html>oops" (some 502)
            (.dict [])))) := by
  have h1 := C5_api_error_no_retry 3 ⟨503, true, .ok (.dict [("detail", .str "overloaded")]), "x"⟩
    [] (by decide) (by decide)
  have h2 := C5_api_error_no_retry 3 arrayBody500 [] (by decide) (by decide)
  have h3 := C5_api_error_no_retry 3 ⟨502, true, .error "Expecting value", "<html>oops"⟩
    [] (by decide) (by decide)
  refine ⟨⟨h1.1, ?_⟩, ?_, ⟨h3.2.1, ?_⟩⟩
  · exact h1.2.2.1 [("detail", .str "overloaded")] rfl
  · exact h2.2.2.2.1 (.arr [.int 1, .int 2]) rfl (by intro entries h; cases h)
  · exact h3.2.2.2.2 "Expecting value" rfl

/-! ## Lemmas about the single-job wait -/

/-- Consuming a block of `processing` polls: while the deadline check passes
before each poll, every `processing` record costs one poll, one sleep, and
one poll interval of elapsed time. -/
theorem waitForJobGo_consume_processing (job_id : Int) (timeout p : Nat)
    (pre : List RawJob) (hpre : ∀ x ∈ pre, x.status = "processing") :
    ∀ (rest : List RawJob) (elapsed polls sleeps : Nat),
      (∀ i, i < pre.length → elapsed + i * p < timeout) →
      waitForJobGo job_id timeout p (pre ++ rest) elapsed polls sleeps =
        waitForJobGo job_id timeout p rest (elapsed + pre.length * p)
          (polls + pre.length) (sleeps + pre.length) := by
  induction pre with
  | nil => intro rest elapsed polls sleeps _; simp
  | cons x pre ih =>
      intro rest elapsed polls sleeps h
      have hx : x.status = "processing" := hpre x (List.mem_cons_self x pre)
      have h0 : elapsed < timeout := by
        have := h 0 (by simp)
        simpa using this
      have hparse : parseJobSchema x =
          .ok { id := x.id, status := JobStatus.processing, response := x.response,
                last_updated_at := x.last_updated_at, created_at := x.created_at,
                path := x.path, operation := x.operation } := by
        simp [parseJobSchema, JobStatus.ofString, hx]
      have hnext : ∀ i, i < pre.length → elapsed + p + i * p < timeout := by
        intro i hi
        have := h (i + 1) (by simp only [List.length_cons]; omega)
        simp only [Nat.succ_mul] at this ⊢
        omega
      rw [List.cons_append, waitForJobGo, if_pos h0]
      simp only [hparse]
      rw [ih (fun y hy => hpre y (List.mem_cons_of_mem x hy)) rest
        (elapsed + p) (polls + 1) (sleeps + 1) hnext]
      have e1 : elapsed + p + pre.length * p = elapsed + (x :: pre).length * p := by
        simp only [List.length_cons, Nat.succ_mul]; omega
      have e2 : polls + 1 + pre.length = polls + (x :: pre).length := by
        simp only [List.length_cons]; omega
      have e3 : sleeps + 1 + pre.length = sleeps + (x :: pre).length := by
        simp only [List.length_cons]; omega
      rw [e1, e2, e3]

/-! ## Claims about the single-job wait -/

/-- C2 (code defect evidence): a polled payload whose status string is
outside the recognized enumeration is not treated as `processing` — model
validation inside `get_job` rejects it before the loop's unknown-status arm
can run, so the first poll raises a validation error with no sleep and
polling does not continue. -/
theorem C2_unknown_status_rejected :
    wait_for_job [⟨7, "queued", [], "t1", "t0", "/jobs/7", "upload"⟩] 7 300 5 =
      ⟨.raised (.validationError "value is not a valid enumeration member: queued"),
        1, 0, 0⟩
    ∧ JobStatus.ofString "queued" = none := ⟨rfl, rfl⟩

/-- C6: when the first `k - 1` polls report `processing` and poll `k`
reports `failure` or `error` within the deadline, `wait_for_job` raises the
job-failed error after exactly `k` polls (with `k - 1` sleeps), carrying
the waited-on job identifier and the `failure_reason` entry of that poll's
response payload. -/
theorem C6_failure_after_exactly_k_polls (job_id : Int) (timeout p : Nat)
    (pre : List RawJob) (j : RawJob) (rest : List RawJob)
    (hpre : ∀ x ∈ pre, x.status = "processing")
    (hj : j.status = "failure" ∨ j.status = "error")
    (ht : pre.length * p < timeout) :
    wait_for_job (pre ++ j :: rest) job_id timeout p =
      ⟨.raised (.jobFailed job_id (JVal.lookup j.response "failure_reason")),
        pre.length + 1, pre.length, pre.length * p⟩ := by
  have hchecks : ∀ i, i < pre.length → 0 + i * p < timeout := by
    intro i hi
    have : i * p ≤ pre.length * p := Nat.mul_le_mul_right p (Nat.le_of_lt hi)
    omega
  rw [wait_for_job,
    waitForJobGo_consume_processing job_id timeout p pre hpre (j :: rest) 0 0 0 hchecks,
    waitForJobGo, if_pos (by omega : 0 + pre.length * p < timeout)]
  rcases hj with hj | hj
  · have hparse : parseJobSchema j =
        .ok { id := j.id, status := JobStatus.failure, response := j.response,
              last_updated_at := j.last_updated_at, created_at := j.created_at,
              path := j.path, operation := j.operation } := by
      simp [parseJobSchema, JobStatus.ofString, hj]
    simp only [hparse]
    simp [Nat.zero_add]
  · have hparse : parseJobSchema j =
        .ok { id := j.id, status := JobStatus.error, response := j.response,
              last_updated_at := j.last_updated_at, created_at := j.created_at,
              path := j.path, operation := j.operation } := by
      simp [parseJobSchema, JobStatus.ofString, hj]
    simp only [hparse]
    simp [Nat.zero_add]

/-- Witness for C6: two `processing` polls then an `error` poll with a
`failure_reason`, at timeout 300 and poll interval 5 — the job-failed error
is raised after exactly 3 polls and 2 sleeps. -/
theorem C6_failure_after_exactly_k_polls_witness :
    wait_for_job
        [⟨9, "processing", [], "", "", "", ""⟩, ⟨9, "processing", [], "", "", "", ""⟩,
          ⟨9, "error", [("failure_reason", .str "boom")], "", "", "", ""⟩] 9 300 5 =
      ⟨.raised (.jobFailed 9 (some (.str "boom"))), 3, 2, 10⟩ :=
  C6_failure_after_exactly_k_polls 9 300 5
    [⟨9, "processing", [], "", "", "", ""⟩, ⟨9, "processing", [], "", "", "", ""⟩]
    ⟨9, "error", [("failure_reason", .str "boom")], "", "", "", ""⟩ []
    (by decide) (Or.inr rfl) (by decide)

/-- When the deadline check fails, the wait exits at once with the
job-timeout error, regardless of the remaining trace. -/
theorem waitForJobGo_timeout_exit (job_id : Int) (timeout p : Nat)
    (trace : List RawJob) (elapsed polls sleeps : Nat) (h : ¬elapsed < timeout) :
    waitForJobGo job_id timeout p trace elapsed polls sleeps =
      ⟨.raised (.jobTimeout job_id timeout), polls, sleeps, elapsed⟩ := by
  cases trace <;> rw [waitForJobGo, if_neg h]

/-- C7: if every poll reports `processing` until the deadline, the wait
raises the job-timeout error carrying the job identifier and the timeout
value; the deadline is checked before each poll, so every issued poll
happened strictly before the timeout, and the elapsed time at the raise
(one poll interval per sleep, polls = sleeps) overshoots the nominal
timeout by less than one poll interval. -/
theorem C7_timeout_overshoot_bounded (job_id : Int) (timeout p : Nat)
    (trace : List RawJob) (hp : 0 < p)
    (hproc : ∀ x ∈ trace, x.status = "processing")
    (hlen : timeout ≤ trace.length * p) :
    ∃ n, wait_for_job trace job_id timeout p =
        ⟨.raised (.jobTimeout job_id timeout), n, n, n * p⟩
      ∧ timeout ≤ n * p ∧ n * p < timeout + p ∧ ∀ k, k < n → k * p < timeout := by
  have hex : ∃ n, timeout ≤ n * p := ⟨timeout, Nat.le_mul_of_pos_right timeout hp⟩
  have hspec : timeout ≤ Nat.find hex * p := Nat.find_spec hex
  have hmin : ∀ k, k < Nat.find hex → k * p < timeout := by
    intro k hk
    have := Nat.find_min hex hk
    omega
  have hnlen : Nat.find hex ≤ trace.length := Nat.find_min' hex hlen
  refine ⟨Nat.find hex, ?_, hspec, ?_, hmin⟩
  · have htklen : (trace.take (Nat.find hex)).length = Nat.find hex := by
      rw [List.length_take]; omega
    have hsplit : trace = trace.take (Nat.find hex) ++ trace.drop (Nat.find hex) :=
      (List.take_append_drop (Nat.find hex) trace).symm
    rw [wait_for_job, hsplit,
      waitForJobGo_consume_processing job_id timeout p (trace.take (Nat.find hex))
        (fun x hx => hproc x (List.take_subset (Nat.find hex) trace hx))
        (trace.drop (Nat.find hex)) 0 0 0 ?_]
    · rw [htklen, waitForJobGo_timeout_exit job_id timeout p _ _ _ _ (by omega)]
      simp
    · intro i hi
      rw [htklen] at hi
      have := hmin i hi
      omega
  · rcases Nat.eq_zero_or_pos (Nat.find hex) with h0 | hpos
    · have hz : Nat.find hex * p = 0 := by rw [h0, Nat.zero_mul]
      omega
    · have hlast := hmin (Nat.find hex - 1) (by omega)
      have hsm : Nat.find hex * p = (Nat.find hex - 1) * p + p := by
        conv_lhs => rw [← Nat.succ_pred_eq_of_pos hpos]
        rw [Nat.succ_mul, Nat.pred_eq_sub_one]
      omega

/-- Witness for C7: three `processing` polls at poll interval 5 against a
12-unit timeout — the wait times out with 3 polls, 3 sleeps, and elapsed
time 15 (overshoot 3 < 5). -/
theorem C7_timeout_overshoot_bounded_witness :
    ∃ n, wait_for_job
          [⟨1, "processing", [], "", "", "", ""⟩, ⟨1, "processing", [], "", "", "", ""⟩,
            ⟨1, "processing", [], "", "", "", ""⟩] 1 12 5 =
        ⟨.raised (.jobTimeout 1 12), n, n, n * 5⟩
      ∧ 12 ≤ n * 5 ∧ n * 5 < 12 + 5 ∧ ∀ k, k < n → k * 5 < 12 :=
  C7_timeout_overshoot_bounded 1 12 5
    [⟨1, "processing", [], "", "", "", ""⟩, ⟨1, "processing", [], "", "", "", ""⟩,
      ⟨1, "processing", [], "", "", "", ""⟩]
    (by decide) (by decide) (by decide)

/-! ## Lemmas about the multi-job wait -/

/-- A round that does not abort only removes ids from the pending list. -/
theorem processRound_next_sublist :
    ∀ (jobs : List JobSchema) (R R' : List Int) (C C' : List JobSchema),
      processRound jobs R C = .next R' C' → R'.Sublist R := by
  intro jobs
  induction jobs with
  | nil =>
      intro R R' C C' h
      cases h
      exact List.Sublist.refl R
  | cons job rest ih =>
      intro R R' C C' h
      cases hs : job.status with
      | success =>
          simp only [processRound, hs] at h
          exact (ih _ _ _ _ h).trans (List.erase_sublist _ _)
      | failure => simp only [processRound, hs] at h; cases h
      | error => simp only [processRound, hs] at h; cases h
      | processing =>
          simp only [processRound, hs] at h
          exact ih _ _ _ _ h

/-- A round that does not abort only appends `success` records to the
completed collection. -/
theorem processRound_next_completed :
    ∀ (jobs : List JobSchema) (R R' : List Int) (C C' : List JobSchema),
      processRound jobs R C = .next R' C' →
      ∃ D, C' = C ++ D ∧ ∀ j ∈ D, j.status = .success := by
  intro jobs
  induction jobs with
  | nil =>
      intro R R' C C' h
      cases h
      exact ⟨[], by simp⟩
  | cons job rest ih =>
      intro R R' C C' h
      cases hs : job.status with
      | success =>
          simp only [processRound, hs] at h
          obtain ⟨D, hD, hDs⟩ := ih _ _ _ _ h
          refine ⟨job :: D, by simp [hD], ?_⟩
          intro x hx
          rcases List.mem_cons.mp hx with rfl | hx
          · exact hs
          · exact hDs x hx
      | failure => simp only [processRound, hs] at h; cases h
      | error => simp only [processRound, hs] at h; cases h
      | processing =>
          simp only [processRound, hs] at h
          exact ih _ _ _ _ h

/-- The first `failure`/`error` record of a round aborts it with that
record's id and failure reason, no matter how many earlier records
succeeded or are still processing. -/
theorem processRound_abort (fj : JobSchema)
    (hfj : fj.status = .failure ∨ fj.status = .error) :
    ∀ (a b : List JobSchema) (R : List Int) (C : List JobSchema),
      (∀ x ∈ a, x.status ≠ .failure ∧ x.status ≠ .error) →
      processRound (a ++ fj :: b) R C =
        .aborted fj.id (JVal.lookup fj.response "failure_reason") := by
  intro a
  induction a with
  | nil =>
      intro b R C _
      rcases hfj with h | h <;> simp only [List.nil_append, processRound, h]
  | cons x a ih =>
      intro b R C ha
      have hx := ha x (List.mem_cons_self x a)
      have ha' : ∀ y ∈ a, y.status ≠ .failure ∧ y.status ≠ .error :=
        fun y hy => ha y (List.mem_cons_of_mem x hy)
      cases hs : x.status with
      | success => simp only [List.cons_append, processRound, hs]; exact ih b _ _ ha'
      | processing => simp only [List.cons_append, processRound, hs]; exact ih b _ _ ha'
      | failure => exact absurd hs hx.1
      | error => exact absurd hs hx.2

/-- In a round over the fetched records of a well-behaved server
(record ids match the requested ids) with a duplicate-free pending list,
every requested id whose record is `success` is absent from the resulting
pending list. -/
theorem processRound_success_removed (g : Int → JobSchema) :
    ∀ (ids R : List Int) (C : List JobSchema) (R' : List Int) (C' : List JobSchema),
      R.Nodup →
      processRound (ids.map g) R C = .next R' C' →
      ∀ i ∈ ids, (g i).id = i → (g i).status = .success → i ∉ R' := by
  intro ids
  induction ids with
  | nil =>
      intro R C R' C' _ _ i hi
      exact absurd hi (List.not_mem_nil i)
  | cons i0 tl ih =>
      intro R C R' C' hnd h i hi hid hsucc
      rw [List.map_cons] at h
      cases hs : (g i0).status with
      | success =>
          simp only [processRound, hs] at h
          rcases List.mem_cons.mp hi with rfl | hi
          · have hsub : R'.Sublist (R.erase (g i).id) := processRound_next_sublist _ _ _ _ _ h
            rw [hid] at hsub
            have : i ∉ R.erase i := by
              intro hmem
              exact absurd ((hnd.mem_erase_iff).mp hmem).1 (by simp)
            exact fun hmem => this (hsub.subset hmem)
          · exact ih _ _ _ _ (hnd.erase _) h i hi hid hsucc
      | failure => simp only [processRound, hs] at h; cases h
      | error => simp only [processRound, hs] at h; cases h
      | processing =>
          simp only [processRound, hs] at h
          rcases List.mem_cons.mp hi with rfl | hi
          · rw [hsucc] at hs
            cases hs
          · exact ih _ _ _ _ hnd h i hi hid hsucc

/-- Unfolding `waitForJobsGo` when the loop condition fails: timeout raise
if ids remain pending, otherwise return the completed records. -/
theorem waitForJobsGo_exit (server : Nat → Int → JobSchema)
    (timeout p fuel : Nat) (R : List Int) (C : List JobSchema)
    (round elapsed : Nat) (fetches : List (List Int)) (sleeps : Nat)
    (h : ¬(R ≠ [] ∧ elapsed < timeout)) :
    waitForJobsGo server timeout p fuel R C round elapsed fetches sleeps =
      if R ≠ [] then
        ⟨.raised (.jobTimeout (R.headD 0) timeout), fetches, round, sleeps,
          elapsed, R⟩
      else ⟨.completed C, fetches, round, sleeps, elapsed, R⟩ := by
  cases fuel <;> rw [waitForJobsGo, if_neg h]

/-- Unfolding `waitForJobsGo` at zero fuel with the loop condition true. -/
theorem waitForJobsGo_zero (server : Nat → Int → JobSchema)
    (timeout p : Nat) (R : List Int) (C : List JobSchema)
    (round elapsed : Nat) (fetches : List (List Int)) (sleeps : Nat)
    (h : R ≠ [] ∧ elapsed < timeout) :
    waitForJobsGo server timeout p 0 R C round elapsed fetches sleeps =
      ⟨.fuelExhausted, fetches, round, sleeps, elapsed, R⟩ := by
  rw [waitForJobsGo, if_pos h]

/-- Unfolding `waitForJobsGo` on an aborting round: the job-failed error is
raised with this round's fetch recorded and no further sleep. -/
theorem waitForJobsGo_abort (server : Nat → Int → JobSchema)
    (timeout p fuel : Nat) (R : List Int) (C : List JobSchema)
    (round elapsed : Nat) (fetches : List (List Int)) (sleeps : Nat)
    (jid : Int) (reason : Option JVal)
    (h : R ≠ [] ∧ elapsed < timeout)
    (hpr : processRound (R.map (server round)) R C = .aborted jid reason) :
    waitForJobsGo server timeout p (fuel + 1) R C round elapsed fetches sleeps =
      ⟨.raised (.jobFailed jid reason), fetches ++ [R], round + 1, sleeps,
        elapsed, R⟩ := by
  rw [waitForJobsGo, if_pos h]
  simp only [hpr]

/-- Unfolding `waitForJobsGo` on a non-aborting round. -/
theorem waitForJobsGo_step (server : Nat → Int → JobSchema)
    (timeout p fuel : Nat) (R : List Int) (C : List JobSchema)
    (round elapsed : Nat) (fetches : List (List Int)) (sleeps : Nat)
    (R' : List Int) (C' : List JobSchema)
    (h : R ≠ [] ∧ elapsed < timeout)
    (hpr : processRound (R.map (server round)) R C = .next R' C') :
    waitForJobsGo server timeout p (fuel + 1) R C round elapsed fetches sleeps =
      if R' ≠ [] then
        waitForJobsGo server timeout p fuel R' C' (round + 1) (elapsed + p)
          (fetches ++ [R]) (sleeps + 1)
      else
        waitForJobsGo server timeout p fuel R' C' (round + 1) elapsed
          (fetches ++ [R]) sleeps := by
  rw [waitForJobsGo, if_pos h]
  simp only [hpr]

/-- Every fetch recorded by the multi-job wait loop is either an inherited
accumulator entry or a sublist of the pending list the loop started from:
fetched id lists only shrink, preserving order. -/
theorem waitForJobsGo_fetches_mem (server : Nat → Int → JobSchema)
    (timeout p : Nat) :
    ∀ (fuel : Nat) (R : List Int) (C : List JobSchema) (round elapsed : Nat)
      (fetches : List (List Int)) (sleeps : Nat) (F : List Int),
      F ∈ (waitForJobsGo server timeout p fuel R C round elapsed fetches sleeps).fetches →
      F ∈ fetches ∨ F.Sublist R := by
  intro fuel
  induction fuel with
  | zero =>
      intro R C round elapsed fetches sleeps F hF
      by_cases h : R ≠ [] ∧ elapsed < timeout
      · rw [waitForJobsGo_zero server timeout p R C round elapsed fetches sleeps h] at hF
        exact Or.inl hF
      · rw [waitForJobsGo_exit server timeout p 0 R C round elapsed fetches sleeps h] at hF
        split at hF <;> exact Or.inl hF
  | succ fuel ih =>
      intro R C round elapsed fetches sleeps F hF
      by_cases h : R ≠ [] ∧ elapsed < timeout
      · cases hpr : processRound (R.map (server round)) R C with
        | aborted jid reason =>
            rw [waitForJobsGo_abort server timeout p fuel R C round elapsed fetches
              sleeps jid reason h hpr] at hF
            rcases List.mem_append.mp hF with hF | hF
            · exact Or.inl hF
            · exact Or.inr (by rw [List.mem_singleton.mp hF])
        | next R' C' =>
            rw [waitForJobsGo_step server timeout p fuel R C round elapsed fetches
              sleeps R' C' h hpr] at hF
            have hsub := processRound_next_sublist _ _ _ _ _ hpr
            split at hF <;>
            · rcases ih R' C' _ _ (fetches ++ [R]) _ F hF with hF | hF
              · rcases List.mem_append.mp hF with hF | hF
                · exact Or.inl hF
                · exact Or.inr (by rw [List.mem_singleton.mp hF])
              · exact Or.inr (hF.trans hsub)
      · rw [waitForJobsGo_exit server timeout p (fuel + 1) R C round elapsed fetches
          sleeps h] at hF
        split at hF <;> exact Or.inl hF

/-- The fetch log is a pure accumulator: the recorded fetches are the
inherited ones followed by those of the same run started with an empty
log. -/
theorem waitForJobsGo_fetches_acc (server : Nat → Int → JobSchema)
    (timeout p : Nat) :
    ∀ (fuel : Nat) (R : List Int) (C : List JobSchema) (round elapsed : Nat)
      (fetches : List (List Int)) (sleeps : Nat),
      (waitForJobsGo server timeout p fuel R C round elapsed fetches sleeps).fetches =
        fetches ++
          (waitForJobsGo server timeout p fuel R C round elapsed [] sleeps).fetches := by
  intro fuel
  induction fuel with
  | zero =>
      intro R C round elapsed fetches sleeps
      by_cases h : R ≠ [] ∧ elapsed < timeout
      · rw [waitForJobsGo_zero server timeout p R C round elapsed fetches sleeps h,
          waitForJobsGo_zero server timeout p R C round elapsed [] sleeps h]
        simp
      · rw [waitForJobsGo_exit server timeout p 0 R C round elapsed fetches sleeps h,
          waitForJobsGo_exit server timeout p 0 R C round elapsed [] sleeps h]
        split <;> simp
  | succ fuel ih =>
      intro R C round elapsed fetches sleeps
      by_cases h : R ≠ [] ∧ elapsed < timeout
      · cases hpr : processRound (R.map (server round)) R C with
        | aborted jid reason =>
            rw [waitForJobsGo_abort server timeout p fuel R C round elapsed fetches
                sleeps jid reason h hpr,
              waitForJobsGo_abort server timeout p fuel R C round elapsed [] sleeps
                jid reason h hpr]
            simp
        | next R' C' =>
            rw [waitForJobsGo_step server timeout p fuel R C round elapsed fetches
                sleeps R' C' h hpr,
              waitForJobsGo_step server timeout p fuel R C round elapsed [] sleeps
                R' C' h hpr]
            by_cases hR' : R' ≠ []
            · rw [if_pos hR', if_pos hR', ih R' C' (round + 1) (elapsed + p)
                (fetches ++ [R]) (sleeps + 1),
                ih R' C' (round + 1) (elapsed + p) ([] ++ [R]) (sleeps + 1)]
              simp
            · rw [if_neg hR', if_neg hR', ih R' C' (round + 1) elapsed
                (fetches ++ [R]) sleeps,
                ih R' C' (round + 1) elapsed ([] ++ [R]) sleeps]
              simp
      · rw [waitForJobsGo_exit server timeout p (fuel + 1) R C round elapsed fetches
            sleeps h,
          waitForJobsGo_exit server timeout p (fuel + 1) R C round elapsed [] sleeps h]
        split <;> simp

/-- Each loop round records exactly one batched fetch. -/
theorem waitForJobsGo_one_fetch_per_round (server : Nat → Int → JobSchema)
    (timeout p : Nat) :
    ∀ (fuel : Nat) (R : List Int) (C : List JobSchema) (round elapsed : Nat)
      (fetches : List (List Int)) (sleeps : Nat),
      (waitForJobsGo server timeout p fuel R C round elapsed fetches sleeps).fetches.length
          + round =
        (waitForJobsGo server timeout p fuel R C round elapsed fetches sleeps).rounds
          + fetches.length := by
  intro fuel
  induction fuel with
  | zero =>
      intro R C round elapsed fetches sleeps
      by_cases h : R ≠ [] ∧ elapsed < timeout
      · rw [waitForJobsGo_zero server timeout p R C round elapsed fetches sleeps h]
        dsimp only
        omega
      · rw [waitForJobsGo_exit server timeout p 0 R C round elapsed fetches sleeps h]
        split <;> (dsimp only; omega)
  | succ fuel ih =>
      intro R C round elapsed fetches sleeps
      by_cases h : R ≠ [] ∧ elapsed < timeout
      · cases hpr : processRound (R.map (server round)) R C with
        | aborted jid reason =>
            rw [waitForJobsGo_abort server timeout p fuel R C round elapsed fetches
              sleeps jid reason h hpr]
            simp
            omega
        | next R' C' =>
            rw [waitForJobsGo_step server timeout p fuel R C round elapsed fetches
              sleeps R' C' h hpr]
            split
            · have := ih R' C' (round + 1) (elapsed + p) (fetches ++ [R]) (sleeps + 1)
              simp only [List.length_append, List.length_singleton] at this
              omega
            · have := ih R' C' (round + 1) elapsed (fetches ++ [R]) sleeps
              simp only [List.length_append, List.length_singleton] at this
              omega
      · rw [waitForJobsGo_exit server timeout p (fuel + 1) R C round elapsed fetches
          sleeps h]
        split <;> (dsimp only; omega)

/-- If the multi-job wait returns a completed collection, the pending list
was empty at exit and (assuming the inherited accumulator held only
`success` records) every returned record has status `success`. -/
theorem waitForJobsGo_completed_char (server : Nat → Int → JobSchema)
    (timeout p : Nat) :
    ∀ (fuel : Nat) (R : List Int) (C : List JobSchema) (round elapsed : Nat)
      (fetches : List (List Int)) (sleeps : Nat),
      (∀ j ∈ C, j.status = .success) →
      ∀ js,
        (waitForJobsGo server timeout p fuel R C round elapsed fetches sleeps).outcome =
          .completed js →
        (waitForJobsGo server timeout p fuel R C round elapsed fetches sleeps).remainingAtEnd = []
          ∧ ∀ j ∈ js, j.status = .success := by
  intro fuel
  induction fuel with
  | zero =>
      intro R C round elapsed fetches sleeps hC js hjs
      by_cases h : R ≠ [] ∧ elapsed < timeout
      · rw [waitForJobsGo_zero server timeout p R C round elapsed fetches sleeps h] at hjs ⊢
        cases hjs
      · rw [waitForJobsGo_exit server timeout p 0 R C round elapsed fetches sleeps h] at hjs ⊢
        split at hjs
        · cases hjs
        · next hR =>
            cases hjs
            refine ⟨?_, hC⟩
            split
            · next hR2 => exact absurd hR2 (by simpa using hR)
            · simpa using hR
  | succ fuel ih =>
      intro R C round elapsed fetches sleeps hC js hjs
      by_cases h : R ≠ [] ∧ elapsed < timeout
      · cases hpr : processRound (R.map (server round)) R C with
        | aborted jid reason =>
            rw [waitForJobsGo_abort server timeout p fuel R C round elapsed fetches
              sleeps jid reason h hpr] at hjs ⊢
            cases hjs
        | next R' C' =>
            obtain ⟨D, hD, hDs⟩ := processRound_next_completed _ _ _ _ _ hpr
            have hC' : ∀ j ∈ C', j.status = .success := by
              intro j hj
              rw [hD] at hj
              rcases List.mem_append.mp hj with hj | hj
              · exact hC j hj
              · exact hDs j hj
            rw [waitForJobsGo_step server timeout p fuel R C round elapsed fetches
              sleeps R' C' h hpr] at hjs ⊢
            split at hjs
            · next hcnd =>
                rw [if_pos hcnd]
                exact ih R' C' (round + 1) (elapsed + p) (fetches ++ [R]) (sleeps + 1)
                  hC' js hjs
            · next hcnd =>
                rw [if_neg hcnd]
                exact ih R' C' (round + 1) elapsed (fetches ++ [R]) sleeps hC' js hjs
      · rw [waitForJobsGo_exit server timeout p (fuel + 1) R C round elapsed fetches
          sleeps h] at hjs ⊢
        split at hjs
        · cases hjs
        · next hR =>
            cases hjs
            refine ⟨?_, hC⟩
            split
            · next hR2 => exact absurd hR2 (by simpa using hR)
            · simpa using hR

/-- If the multi-job wait raises a job-timeout error, the timeout value is
the configured one, the pending list at exit is non-empty, the raised id is
its first element, and it only contains ids that were still pending (a
sublist of the pending list the run started from). -/
theorem waitForJobsGo_timeout_char (server : Nat → Int → JobSchema)
    (timeout p : Nat) :
    ∀ (fuel : Nat) (R : List Int) (C : List JobSchema) (round elapsed : Nat)
      (fetches : List (List Int)) (sleeps : Nat) (id : Int) (t : Nat),
      (waitForJobsGo server timeout p fuel R C round elapsed fetches sleeps).outcome =
        .raised (.jobTimeout id t) →
      t = timeout
      ∧ (waitForJobsGo server timeout p fuel R C round elapsed fetches sleeps).remainingAtEnd ≠ []
      ∧ id = ((waitForJobsGo server timeout p fuel R C round elapsed fetches sleeps).remainingAtEnd).headD 0
      ∧ ((waitForJobsGo server timeout p fuel R C round elapsed fetches sleeps).remainingAtEnd).Sublist R := by
  intro fuel
  induction fuel with
  | zero =>
      intro R C round elapsed fetches sleeps id t hout
      by_cases h : R ≠ [] ∧ elapsed < timeout
      · rw [waitForJobsGo_zero server timeout p R C round elapsed fetches sleeps h] at hout ⊢
        cases hout
      · rw [waitForJobsGo_exit server timeout p 0 R C round elapsed fetches sleeps h] at hout ⊢
        split at hout
        · next hR =>
            cases hout
            rw [if_pos hR]
            exact ⟨rfl, hR, rfl, List.Sublist.refl R⟩
        · cases hout
  | succ fuel ih =>
      intro R C round elapsed fetches sleeps id t hout
      by_cases h : R ≠ [] ∧ elapsed < timeout
      · cases hpr : processRound (R.map (server round)) R C with
        | aborted jid reason =>
            rw [waitForJobsGo_abort server timeout p fuel R C round elapsed fetches
              sleeps jid reason h hpr] at hout ⊢
            cases hout
        | next R' C' =>
            have hsub := processRound_next_sublist _ _ _ _ _ hpr
            rw [waitForJobsGo_step server timeout p fuel R C round elapsed fetches
              sleeps R' C' h hpr] at hout ⊢
            split at hout
            · next hcnd =>
                rw [if_pos hcnd]
                obtain ⟨h1, h2, h3, h4⟩ := ih R' C' (round + 1) (elapsed + p)
                  (fetches ++ [R]) (sleeps + 1) id t hout
                exact ⟨h1, h2, h3, h4.trans hsub⟩
            · next hcnd =>
                rw [if_neg hcnd]
                obtain ⟨h1, h2, h3, h4⟩ := ih R' C' (round + 1) elapsed
                  (fetches ++ [R]) sleeps id t hout
                exact ⟨h1, h2, h3, h4.trans hsub⟩
      · rw [waitForJobsGo_exit server timeout p (fuel + 1) R C round elapsed fetches
          sleeps h] at hout ⊢
        split at hout
        · next hR =>
            cases hout
            rw [if_pos hR]
            exact ⟨rfl, hR, rfl, List.Sublist.refl R⟩
        · cases hout

/-- Never-refetch invariant: against a server whose records carry the
requested id, and starting from a duplicate-free pending list, an id whose
record was `success` in the batched fetch of round `k` does not appear in
any later round's fetch of the same wait. -/
theorem waitForJobsGo_success_not_refetched (server : Nat → Int → JobSchema)
    (timeout p : Nat) (hid : ∀ r i, (server r i).id = i) :
    ∀ (fuel : Nat) (R : List Int) (C : List JobSchema) (round elapsed sleeps : Nat),
      R.Nodup →
      ∀ (k : Nat) (F : List Int),
        (waitForJobsGo server timeout p fuel R C round elapsed [] sleeps).fetches.get? k
          = some F →
        ∀ i ∈ F, (server (round + k) i).status = .success →
        ∀ (d : Nat) (F' : List Int),
          (waitForJobsGo server timeout p fuel R C round elapsed [] sleeps).fetches.get?
            (k + d + 1) = some F' →
          i ∉ F' := by
  intro fuel
  induction fuel with
  | zero =>
      intro R C round elapsed sleeps _ k F hk
      by_cases h : R ≠ [] ∧ elapsed < timeout
      · rw [waitForJobsGo_zero server timeout p R C round elapsed [] sleeps h] at hk
        cases hk
      · rw [waitForJobsGo_exit server timeout p 0 R C round elapsed [] sleeps h] at hk
        split at hk <;> cases hk
  | succ fuel ih =>
      intro R C round elapsed sleeps hnd k F hk i hiF hsucc d F' hk'
      by_cases h : R ≠ [] ∧ elapsed < timeout
      · cases hpr : processRound (R.map (server round)) R C with
        | aborted jid reason =>
            rw [waitForJobsGo_abort server timeout p fuel R C round elapsed []
              sleeps jid reason h hpr] at hk hk'
            have : ([] ++ [R] : List (List Int)).get? (k + d + 1) = none := by
              simp
            rw [hk'] at this
            cases this
        | next R' C' =>
            have hsub := processRound_next_sublist _ _ _ _ _ hpr
            rw [waitForJobsGo_step server timeout p fuel R C round elapsed []
              sleeps R' C' h hpr] at hk hk'
            have hshape : ∀ (e s : Nat),
                (waitForJobsGo server timeout p fuel R' C' (round + 1) e ([] ++ [R]) s).fetches =
                  R :: (waitForJobsGo server timeout p fuel R' C' (round + 1) e [] s).fetches := by
              intro e s
              rw [waitForJobsGo_fetches_acc server timeout p fuel R' C' (round + 1) e
                ([] ++ [R]) s]
              simp
            have hcore : ∀ (e s : Nat),
                (R :: (waitForJobsGo server timeout p fuel R' C' (round + 1) e [] s).fetches).get? k = some F →
                (R :: (waitForJobsGo server timeout p fuel R' C' (round + 1) e [] s).fetches).get? (k + d + 1) = some F' →
                i ∉ F' := by
              intro e s hk1 hk1'
              cases k with
              | zero =>
                  have hF : F = R := (by simpa using hk1 : R = F).symm
                  subst hF
                  have hiR' : i ∉ R' := by
                    refine processRound_success_removed (server round) _ _ _ R' C'
                      hnd hpr i hiF (hid round i) ?_
                    simpa using hsucc
                  simp only [Nat.zero_add] at hk1'
                  rw [List.get?_cons_succ] at hk1'
                  have hF'mem : F' ∈ (waitForJobsGo server timeout p fuel R' C'
                      (round + 1) e [] s).fetches := List.get?_mem hk1'
                  rcases waitForJobsGo_fetches_mem server timeout p fuel R' C'
                      (round + 1) e [] s F' hF'mem with hmem | hsubF'
                  · cases hmem
                  · exact fun hiF' => hiR' (hsubF'.subset hiF')
              | succ k =>
                  rw [List.get?_cons_succ] at hk1
                  have hk2' : (waitForJobsGo server timeout p fuel R' C' (round + 1) e [] s).fetches.get? (k + d + 1) = some F' := by
                    have harg : k + 1 + d + 1 = (k + d + 1) + 1 := by omega
                    rw [harg, List.get?_cons_succ] at hk1'
                    exact hk1'
                  have hsucc2 : (server (round + 1 + k) i).status = .success := by
                    have harg : round + 1 + k = round + (k + 1) := by omega
                    rw [harg]
                    exact hsucc
                  exact ih R' C' (round + 1) e s (hsub.nodup hnd) k F hk1 i hiF hsucc2
                    d F' hk2'
            split at hk <;> rename_i hcnd
            · rw [if_pos hcnd] at hk'
              rw [hshape] at hk hk'
              exact hcore _ _ hk hk'
            · rw [if_neg hcnd] at hk'
              rw [hshape] at hk hk'
              exact hcore _ _ hk hk'
      · rw [waitForJobsGo_exit server timeout p (fuel + 1) R C round elapsed []
          sleeps h] at hk
        split at hk <;> cases hk

/-! ## Claims about the multi-job wait -/

/-- C8: as soon as a round's batched response contains a `failure`/`error`
record (with any mix of succeeded and still-processing records before it),
the multi-job wait raises a job-failed error carrying that record's id and
failure reason and aborts at once: the fetch log gains only this round's
batch, and no further fetch or sleep occurs, whatever the state of the
sibling jobs. -/
theorem C8_multi_wait_fail_fast (server : Nat → Int → JobSchema)
    (timeout p fuel : Nat) (R : List Int) (C : List JobSchema)
    (round elapsed : Nat) (fetches : List (List Int)) (sleeps : Nat)
    (a b : List JobSchema) (fj : JobSchema)
    (hR : R ≠ []) (helapsed : elapsed < timeout)
    (hsplit : R.map (server round) = a ++ fj :: b)
    (ha : ∀ x ∈ a, x.status ≠ .failure ∧ x.status ≠ .error)
    (hfj : fj.status = .failure ∨ fj.status = .error) :
    waitForJobsGo server timeout p (fuel + 1) R C round elapsed fetches sleeps =
      ⟨.raised (.jobFailed fj.id (JVal.lookup fj.response "failure_reason")),
        fetches ++ [R], round + 1, sleeps, elapsed, R⟩ := by
  have hpr : processRound (R.map (server round)) R C =
      .aborted fj.id (JVal.lookup fj.response "failure_reason") := by
    rw [hsplit]
    exact processRound_abort fj hfj a b R C ha
  exact waitForJobsGo_abort server timeout p fuel R C round elapsed fetches
    sleeps _ _ ⟨hR, helapsed⟩ hpr

/-- A concrete two-job server: job 1 succeeds, job 2 fails with a reason. -/
def serverOneFailing (_r : Nat) (i : Int) : JobSchema :=
  if i = 1 then ⟨1, .success, [("ds_id", .int 10)], "", "", "", ""⟩
  else ⟨2, .failure, [("failure_reason", .str "bad row")], "", "", "", ""⟩

/-- Witness for C8: jobs {1: success, 2: failure} — the wait raises the
job-failed error for job 2 in the first round, with one batched fetch, no
sleep, and job 1's success not changing the outcome. -/
theorem C8_multi_wait_fail_fast_witness :
    wait_for_jobs serverOneFailing [1, 2] 300 5 10 =
      ⟨.raised (.jobFailed 2 (some (.str "bad row"))), [[1, 2]], 1, 0, 0, [1, 2]⟩ :=
  C8_multi_wait_fail_fast serverOneFailing 300 5 9 [1, 2] [] 0 0 [] 0
    [⟨1, .success, [("ds_id", .int 10)], "", "", "", ""⟩] []
    ⟨2, .failure, [("failure_reason", .str "bad row")], "", "", "", ""⟩
    (by decide) (by decide) rfl (by decide) (Or.inl rfl)

/-- C10: waiting on an empty id list returns an empty completed collection
at once — no fetch, no sleep, no elapsed time, and no error — for every
timeout, poll interval, and fuel. -/
theorem C10_empty_wait_immediate (server : Nat → Int → JobSchema)
    (timeout p fuel : Nat) :
    wait_for_jobs server [] timeout p fuel =
      ⟨.completed [], [], 0, 0, 0, []⟩ := by
  have h : ¬(([] : List Int) ≠ [] ∧ (0 : Nat) < timeout) := by simp
  rw [wait_for_jobs, waitForJobsGo_exit server timeout p fuel [] [] 0 0 [] 0 h]
  simp

/-- C9: invariants of the multi-job wait against a well-behaved server
(records carry the requested id) and duplicate-free input ids: (1) each
loop round issues exactly one batched fetch; (2) every fetch draws its ids
from the input list, preserving order (the pending set only shrinks);
(3) an id observed `success` in the fetch of round `k` is never fetched
again in any later round; (4) when the pending list empties the call
returns the collection of succeeded job records; (5) a job-timeout raise
carries the configured timeout and identifies one still-pending id. -/
theorem C9_multi_wait_invariants (server : Nat → Int → JobSchema)
    (job_ids : List Int) (timeout p fuel : Nat)
    (hid : ∀ r i, (server r i).id = i) (hnd : job_ids.Nodup) :
    (wait_for_jobs server job_ids timeout p fuel).fetches.length =
        (wait_for_jobs server job_ids timeout p fuel).rounds
    ∧ (∀ F ∈ (wait_for_jobs server job_ids timeout p fuel).fetches,
        F.Sublist job_ids)
    ∧ (∀ (k : Nat) (F : List Int),
        (wait_for_jobs server job_ids timeout p fuel).fetches.get? k = some F →
        ∀ i ∈ F, (server k i).status = .success →
        ∀ (d : Nat) (F' : List Int),
          (wait_for_jobs server job_ids timeout p fuel).fetches.get? (k + d + 1) =
            some F' →
          i ∉ F')
    ∧ (∀ js,
        (wait_for_jobs server job_ids timeout p fuel).outcome = .completed js →
        (wait_for_jobs server job_ids timeout p fuel).remainingAtEnd = []
        ∧ ∀ j ∈ js, j.status = .success)
    ∧ (∀ (id : Int) (t : Nat),
        (wait_for_jobs server job_ids timeout p fuel).outcome =
          .raised (.jobTimeout id t) →
        t = timeout
        ∧ (wait_for_jobs server job_ids timeout p fuel).remainingAtEnd ≠ []
        ∧ id ∈ (wait_for_jobs server job_ids timeout p fuel).remainingAtEnd
        ∧ (wait_for_jobs server job_ids timeout p fuel).remainingAtEnd.Sublist
            job_ids) := by
  refine ⟨?_, ?_, ?_, ?_, ?_⟩
  · have := waitForJobsGo_one_fetch_per_round server timeout p fuel job_ids [] 0 0 [] 0
    simpa using this
  · intro F hF
    rcases waitForJobsGo_fetches_mem server timeout p fuel job_ids [] 0 0 [] 0 F hF
      with hmem | hsub
    · cases hmem
    · exact hsub
  · intro k F hk i hiF hsucc d F' hk'
    refine waitForJobsGo_success_not_refetched server timeout p hid fuel job_ids []
      0 0 0 hnd k F hk i hiF ?_ d F' hk'
    rw [Nat.zero_add]
    exact hsucc
  · intro js hjs
    exact waitForJobsGo_completed_char server timeout p fuel job_ids [] 0 0 [] 0
      (by simp) js hjs
  · intro id t hout
    obtain ⟨h1, h2, h3, h4⟩ := waitForJobsGo_timeout_char server timeout p fuel
      job_ids [] 0 0 [] 0 id t hout
    refine ⟨h1, h2, ?_, h4⟩
    rw [wait_for_jobs]
    cases hrem : (waitForJobsGo server timeout p fuel job_ids [] 0 0 [] 0).remainingAtEnd with
    | nil => exact absurd hrem h2
    | cons x xs =>
        rw [hrem] at h3
        rw [h3]
        exact List.mem_cons_self x xs

/-- A concrete well-behaved server for the C9 witness: job 1 is processing
in round 0 and succeeds afterwards; every other job succeeds at once. -/
def serverStaggered (r : Nat) (i : Int) : JobSchema :=
  if r = 0 ∧ i = 1 then ⟨i, .processing, [], "", "", "", ""⟩
  else ⟨i, .success, [("ds_id", .int (2 * i))], "", "", "", ""⟩

/-- Witness for C9 at the concrete staggered server with input ids [1, 2]. -/
theorem C9_multi_wait_invariants_witness :
    (wait_for_jobs serverStaggered [1, 2] 300 5 10).fetches.length =
        (wait_for_jobs serverStaggered [1, 2] 300 5 10).rounds
    ∧ (∀ F ∈ (wait_for_jobs serverStaggered [1, 2] 300 5 10).fetches,
        F.Sublist [1, 2])
    ∧ (∀ (k : Nat) (F : List Int),
        (wait_for_jobs serverStaggered [1, 2] 300 5 10).fetches.get? k = some F →
        ∀ i ∈ F, (serverStaggered k i).status = .success →
        ∀ (d : Nat) (F' : List Int),
          (wait_for_jobs serverStaggered [1, 2] 300 5 10).fetches.get? (k + d + 1) =
            some F' →
          i ∉ F')
    ∧ (∀ js,
        (wait_for_jobs serverStaggered [1, 2] 300 5 10).outcome = .completed js →
        (wait_for_jobs serverStaggered [1, 2] 300 5 10).remainingAtEnd = []
        ∧ ∀ j ∈ js, j.status = .success)
    ∧ (∀ (id : Int) (t : Nat),
        (wait_for_jobs serverStaggered [1, 2] 300 5 10).outcome =
          .raised (.jobTimeout id t) →
        t = 300
        ∧ (wait_for_jobs serverStaggered [1, 2] 300 5 10).remainingAtEnd ≠ []
        ∧ id ∈ (wait_for_jobs serverStaggered [1, 2] 300 5 10).remainingAtEnd
        ∧ (wait_for_jobs serverStaggered [1, 2] 300 5 10).remainingAtEnd.Sublist
            [1, 2]) :=
  C9_multi_wait_invariants serverStaggered [1, 2] 300 5 10
    (by
      intro r i
      unfold serverStaggered
      split <;> rfl)
    (by decide)

/-! ## Claims about the upload orchestration -/

/-- A concrete upload server: job 1 is processing in round 0 and succeeds
with dataset id 10 afterwards; job 2 succeeds at once with dataset id 20;
job 3 succeeds at once with no `ds_id` in its payload. -/
def serverUpload (r : Nat) (i : Int) : JobSchema :=
  if i = 1 then
    if r = 0 then ⟨1, .processing, [], "", "", "", ""⟩
    else ⟨1, .success, [("ds_id", .int 10)], "", "", "", ""⟩
  else if i = 2 then ⟨2, .success, [("ds_id", .int 20)], "", "", "", ""⟩
  else ⟨3, .success, [("other", .int 1)], "", "", "", ""⟩

/-- Counterexample to C1 as stated: 3 files whose jobs all complete, with
job 3's payload lacking `ds_id` and job 1 completing one round later than
jobs 2 and 3. The claim requires a 3-element collection in input order with
`None` at position 3; the code returns the 2-element collection
`[20, 10]` — the `None` entry is filtered out and the order is completion
order (job 2's id before job 1's), not input order. -/
theorem C1_upload_shape_counterexample :
    upload_files_post 3
        [⟨some 200, some 1, none⟩, ⟨some 200, some 2, none⟩,
          ⟨some 200, some 3, none⟩]
        true 300 serverUpload 10 =
      .returned (.ids [.int 20, .int 10])
    ∧ [JVal.int 20, JVal.int 10].length ≠ 3 := ⟨rfl, by decide⟩

/-- C1 (amended): with waiting enabled, submitting exactly 1 file yields a
scalar dataset id or nothing, never a collection; submitting several files
whose wait completes yields the collection of dataset ids extracted from
the completed job records — one lookup per completed record, in the order
the records were collected (completion order) — with the entries lacking
`ds_id` filtered out rather than kept as `None`; and the extraction helper
itself is positionwise: entry `k` is the `ds_id` of completed record `k`,
absent when the payload lacks it. -/
theorem C1_upload_result_shape :
    (∀ (objJobs : List ObjectJobSchema) (server : Nat → Int → JobSchema)
        (timeout fuel : Nat) (l : List JVal) (li : List Int),
      upload_files_post 1 objJobs true timeout server fuel ≠ .returned (.ids l)
      ∧ upload_files_post 1 objJobs true timeout server fuel ≠
          .returned (.jobIds li))
    ∧ (∀ (numFiles : Nat) (objJobs : List ObjectJobSchema)
        (server : Nat → Int → JobSchema) (timeout fuel : Nat)
        (js : List JobSchema),
      2 ≤ numFiles →
      (wait_for_jobs server (objJobs.filterMap (fun j => j.job_id)) timeout 5
          fuel).outcome = .completed js →
      objJobs.filterMap (fun j => j.job_id) ≠ [] →
      upload_files_post numFiles objJobs true timeout server fuel =
        .returned (.ids ((extract_dataset_ids js).filterMap (fun d => d))))
    ∧ (∀ (js : List JobSchema) (k : Nat),
      (extract_dataset_ids js).length = js.length
      ∧ (extract_dataset_ids js).get? k =
          (js.get? k).map (fun j => JVal.lookup j.response "ds_id")) := by
  refine ⟨?_, ?_, ?_⟩
  · intro objJobs server timeout fuel l li
    simp only [upload_files_post]
    rw [if_neg (by simp)]
    by_cases hjob : objJobs.filterMap (fun j => j.job_id) ≠ []
    · rw [if_pos hjob]
      cases houtcome : (wait_for_jobs server
          (objJobs.filterMap (fun j => j.job_id)) timeout 5 fuel).outcome with
      | completed js =>
          simp only [houtcome, if_true]
          cases hvalid : (extract_dataset_ids js).filterMap (fun d => d) with
          | nil => simp [hvalid]
          | cons d ds => simp [hvalid]
      | raised e => simp [houtcome]
      | fuelExhausted => simp [houtcome]
    · rw [if_neg hjob]
      rw [if_neg (by omega)]
      simp
  · intro numFiles objJobs server timeout fuel js h2 hout hjob
    simp only [upload_files_post]
    rw [if_neg (by simp), if_pos hjob]
    simp only [hout]
    rw [if_neg (by omega)]
  · intro js k
    constructor
    · simp [extract_dataset_ids]
    · simp [extract_dataset_ids, List.get?_map]

/-- The completed records of the C1 scenario, in completion order: jobs 2
and 3 finish in round 0, job 1 in round 1. -/
def jsUpload : List JobSchema :=
  [⟨2, .success, [("ds_id", .int 20)], "", "", "", ""⟩,
    ⟨3, .success, [("other", .int 1)], "", "", "", ""⟩,
    ⟨1, .success, [("ds_id", .int 10)], "", "", "", ""⟩]

set_option maxRecDepth 4000 in
/-- Witness for C1 (amended), at the concrete upload scenario: one file
yields no collection; three files yield the filtered completion-order
collection `[20, 10]`; and the extraction helper reports `None` at the
position of the job lacking `ds_id`. -/
theorem C1_upload_result_shape_witness :
    (upload_files_post 1 [⟨some 200, some 2, none⟩] true 300 serverUpload 10 ≠
        .returned (.ids [])
      ∧ upload_files_post 1 [⟨some 200, some 2, none⟩] true 300 serverUpload 10 ≠
        .returned (.jobIds []))
    ∧ upload_files_post 3
        [⟨some 200, some 1, none⟩, ⟨some 200, some 2, none⟩,
          ⟨some 200, some 3, none⟩]
        true 300 serverUpload 10 =
      .returned (.ids ((extract_dataset_ids jsUpload).filterMap (fun d => d)))
    ∧ (extract_dataset_ids jsUpload).length = jsUpload.length
    ∧ (extract_dataset_ids jsUpload).get? 1 = some none :=
  ⟨C1_upload_result_shape.1 [⟨some 200, some 2, none⟩] serverUpload 300 10 [] [],
    C1_upload_result_shape.2.1 3
      [⟨some 200, some 1, none⟩, ⟨some 200, some 2, none⟩, ⟨some 200, some 3, none⟩]
      serverUpload 300 10 jsUpload (by decide) rfl (by decide),
    (C1_upload_result_shape.2.2 jsUpload 1).1,
    (C1_upload_result_shape.2.2 jsUpload 1).2⟩
